import Mathlib

/-!
Verification development for the database layer of the video recommendation
system (`database_algorithm.py`, class `DatabaseVideoRecommender`).

The durable SQLite state is embedded as explicit record types holding the five
tables (`videos`, `user_profiles`, `watch_history`, `liked_videos`,
`recommendation_logs`), and every database-touching method of the class is
embedded as a pure function from state (plus the timestamps that
`datetime.now()` would supply) to state and results.  REAL columns are
modelled as rationals, nullable columns as `Option`.
-/

namespace VideoRec

/-! ## JSON encoding of tag lists

The `tags` column stores `json.dumps(video.tags)` and is read back with
`json.loads`.  The two functions below model CPython's `json.dumps` (with its
default `ensure_ascii=True`) restricted to lists of strings, and `json.loads`
restricted to inputs denoting lists of strings.  `json.dumps` escapes `"` and
`\`, uses the short escapes for backspace, form feed, newline, carriage
return and tab, emits other ASCII from 0x20 to 0x7e verbatim, and escapes
every remaining code point as `\uXXXX` (as a surrogate pair when above
0xffff), joining list items with a comma and a space. -/

/-- Hexadecimal digits of a code point below 0x10000, for a `\uXXXX` escape
(`Nat.digitChar` yields the lowercase hex digits CPython emits). -/
def encHex4 (n : Nat) : List Char :=
  [Nat.digitChar (n / 4096 % 16), Nat.digitChar (n / 256 % 16),
   Nat.digitChar (n / 16 % 16), Nat.digitChar (n % 16)]

/-- The characters `json.dumps` emits for one character of a string. -/
def encodeChar (c : Char) : List Char :=
  if c = '"' then ['\\', '"']
  else if c = '\\' then ['\\', '\\']
  else if c = '\x08' then ['\\', 'b']
  else if c = '\x0c' then ['\\', 'f']
  else if c = '\n' then ['\\', 'n']
  else if c = '\r' then ['\\', 'r']
  else if c = '\t' then ['\\', 't']
  else if 0x20 ≤ c.toNat ∧ c.toNat ≤ 0x7e then [c]
  else if c.toNat < 0x10000 then '\\' :: 'u' :: encHex4 c.toNat
  else
    ('\\' :: 'u' :: encHex4 (0xd800 + (c.toNat - 0x10000) / 0x400)) ++
    ('\\' :: 'u' :: encHex4 (0xdc00 + (c.toNat - 0x10000) % 0x400))

/-- JSON encoding of one string: its characters escaped, between quotes. -/
def encodeStr (s : String) : List Char :=
  '"' :: (s.data.map encodeChar).flatten ++ ['"']

/-- Encoded list items joined by `", "` (CPython's default item separator). -/
def sepJoin : List (List Char) → List Char
  | [] => []
  | [x] => x
  | x :: y :: xs => x ++ ',' :: ' ' :: sepJoin (y :: xs)

/-- Models `json.dumps` on a list of strings. -/
def jsonDumpsStringList (l : List String) : String :=
  String.mk ('[' :: sepJoin (l.map encodeStr) ++ [']'])

/-- JSON whitespace accepted between tokens by `json.loads`. -/
def isJsonWs (c : Char) : Bool :=
  c = ' ' ∨ c = '\t' ∨ c = '\n' ∨ c = '\r'

/-- Value of one hexadecimal digit character (either case), as in a `\uXXXX`
escape. -/
def decHexDigit (c : Char) : Option Nat :=
  if 48 ≤ c.toNat ∧ c.toNat ≤ 57 then some (c.toNat - 48)
  else if 97 ≤ c.toNat ∧ c.toNat ≤ 102 then some (c.toNat - 87)
  else if 65 ≤ c.toNat ∧ c.toNat ≤ 70 then some (c.toNat - 55)
  else none

/-- Value of a four-hex-digit escape body. -/
def decHex4 (a b c d : Nat) : Nat := a * 4096 + b * 256 + c * 16 + d

mutual

/-- Decoder state inside a string literal: `strs` holds the completed strings
in reverse, `acc` the current string's characters in reverse.  Mirrors
CPython's `py_scanstring` (strict mode: an unescaped control character is an
error).  A decoded lone surrogate — which CPython would keep as an
unpaired surrogate code unit — is not representable as a `Char` and is
rejected; `json.dumps` output never contains one. -/
def decStr (strs : List String) (acc : List Char) :
    List Char → Option (List String × List Char)
  | [] => none
  | c :: rest =>
    if c = '"' then decAfter (String.mk acc.reverse :: strs) rest
    else if c = '\\' then decEsc strs acc rest
    else if c.toNat < 0x20 then none
    else decStr strs (c :: acc) rest
termination_by cs => cs.length

/-- Decoder state just after a backslash inside a string literal. -/
def decEsc (strs : List String) (acc : List Char) :
    List Char → Option (List String × List Char)
  | [] => none
  | e :: rest =>
    if e = '"' then decStr strs ('"' :: acc) rest
    else if e = '\\' then decStr strs ('\\' :: acc) rest
    else if e = '/' then decStr strs ('/' :: acc) rest
    else if e = 'b' then decStr strs ('\x08' :: acc) rest
    else if e = 'f' then decStr strs ('\x0c' :: acc) rest
    else if e = 'n' then decStr strs ('\n' :: acc) rest
    else if e = 'r' then decStr strs ('\r' :: acc) rest
    else if e = 't' then decStr strs ('\t' :: acc) rest
    else if e = 'u' then decHexEsc strs acc rest
    else none
termination_by cs => cs.length

/-- Decoder state just after `\u`: four hex digits follow; a high surrogate
must be completed by a `\uXXXX` low surrogate. -/
def decHexEsc (strs : List String) (acc : List Char) :
    List Char → Option (List String × List Char)
  | a :: b :: c :: d :: rest =>
    match decHexDigit a, decHexDigit b, decHexDigit c, decHexDigit d with
    | some va, some vb, some vc, some vd =>
      let n := decHex4 va vb vc vd
      if 0xd800 ≤ n ∧ n < 0xdc00 then decLowSur strs acc n rest
      else if 0xdc00 ≤ n ∧ n < 0xe000 then none
      else decStr strs (Char.ofNat n :: acc) rest
    | _, _, _, _ => none
  | _ => none
termination_by cs => cs.length

/-- Decoder state after a high surrogate escape `hi`, expecting the matching
`\uXXXX` low surrogate. -/
def decLowSur (strs : List String) (acc : List Char) (hi : Nat) :
    List Char → Option (List String × List Char)
  | bs :: u :: a :: b :: c :: d :: rest =>
    if bs = '\\' ∧ u = 'u' then
      match decHexDigit a, decHexDigit b, decHexDigit c, decHexDigit d with
      | some va, some vb, some vc, some vd =>
        let m := decHex4 va vb vc vd
        if 0xdc00 ≤ m ∧ m < 0xe000 then
          decStr strs
            (Char.ofNat (0x10000 + (hi - 0xd800) * 0x400 + (m - 0xdc00)) :: acc)
            rest
        else none
      | _, _, _, _ => none
    else none
  | _ => none
termination_by cs => cs.length

/-- Decoder state between a completed string and the next `,` or closing
`]`. -/
def decAfter (strs : List String) :
    List Char → Option (List String × List Char)
  | [] => none
  | c :: rest =>
    if isJsonWs c then decAfter strs rest
    else if c = ']' then some (strs.reverse, rest)
    else if c = ',' then decComma strs rest
    else none
termination_by cs => cs.length

/-- Decoder state after a `,`, expecting the next string element. -/
def decComma (strs : List String) :
    List Char → Option (List String × List Char)
  | [] => none
  | c :: rest =>
    if isJsonWs c then decComma strs rest
    else if c = '"' then decStr strs [] rest
    else none
termination_by cs => cs.length

end

/-- Decoder state just after the opening `[`: either `]` (empty list) or the
first string element. -/
def decTop : List Char → Option (List String × List Char)
  | [] => none
  | c :: rest =>
    if isJsonWs c then decTop rest
    else if c = ']' then some ([], rest)
    else if c = '"' then decStr [] [] rest
    else none

/-- Decoder start state: leading whitespace, then the opening `[`. -/
def decHead : List Char → Option (List String × List Char)
  | [] => none
  | c :: rest =>
    if isJsonWs c then decHead rest
    else if c = '[' then decTop rest
    else none

/-- Models `json.loads` on texts denoting a list of strings; `none` where
CPython's `json.loads` would raise (or where the value is not such a list). -/
def jsonLoadsStringList (s : String) : Option (List String) :=
  match decHead s.data with
  | some (l, rest) => if rest.all isJsonWs then some l else none
  | none => none

/-! ### Round trip of the tag-list JSON codec -/

/-- Unicode scalar values avoid the surrogate range. -/
theorem charValidNat (c : Char) :
    c.toNat < 0xd800 ∨ (0xe000 ≤ c.toNat ∧ c.toNat < 0x110000) := by
  have h := c.valid
  unfold UInt32.isValidChar Nat.isValidChar at h
  rcases h with h | ⟨h1, h2⟩
  · exact Or.inl h
  · exact Or.inr ⟨h1, h2⟩

theorem decHexDigit_digitChar : ∀ n, n < 16 → decHexDigit (Nat.digitChar n) = some n := by
  decide

/-- Decoding the escape `json.dumps` emits for one character consumes exactly
that character. -/
theorem decStr_encodeChar (strs : List String) (acc : List Char) (c : Char)
    (cs : List Char) :
    decStr strs acc (encodeChar c ++ cs) = decStr strs (c :: acc) cs := by
  have d : ∀ m : Nat, decHexDigit (Nat.digitChar (m % 16)) = some (m % 16) :=
    fun m => decHexDigit_digitChar _ (Nat.mod_lt _ (by norm_num))
  by_cases h1 : c = '"'
  · subst h1; simp [encodeChar, decStr, decEsc]
  by_cases h2 : c = '\\'
  · subst h2; simp [encodeChar, decStr, decEsc]
  by_cases h3 : c = '\x08'
  · subst h3; simp [encodeChar, decStr, decEsc]
  by_cases h4 : c = '\x0c'
  · subst h4; simp [encodeChar, decStr, decEsc]
  by_cases h5 : c = '\n'
  · subst h5; simp [encodeChar, decStr, decEsc]
  by_cases h6 : c = '\r'
  · subst h6; simp [encodeChar, decStr, decEsc]
  by_cases h7 : c = '\t'
  · subst h7; simp [encodeChar, decStr, decEsc]
  by_cases h8 : 0x20 ≤ c.toNat ∧ c.toNat ≤ 0x7e
  · have h9 : ¬ c.toNat < 0x20 := by omega
    simp [encodeChar, h1, h2, h3, h4, h5, h6, h7, h8, decStr, h9]
  by_cases h10 : c.toNat < 0x10000
  · have hA : ¬ (0xd800 ≤ c.toNat ∧ c.toNat < 0xdc00) := by
      rcases charValidNat c with h | h <;> omega
    have hB : ¬ (0xdc00 ≤ c.toNat ∧ c.toNat < 0xe000) := by
      rcases charValidNat c with h | h <;> omega
    have hsum : decHex4 (c.toNat / 4096 % 16) (c.toNat / 256 % 16)
        (c.toNat / 16 % 16) (c.toNat % 16) = c.toNat := by
      unfold decHex4; omega
    simp only [encodeChar, h1, h2, h3, h4, h5, h6, h7, h8, h10, if_true,
      if_false, ite_true, ite_false, encHex4, List.cons_append, List.nil_append]
    rw [decStr]
    simp only [ite_false, ite_true, if_neg (by decide : ¬ ('\\' : Char) = '"'),
      if_pos rfl]
    rw [decEsc]
    simp only [if_neg (by decide : ¬ ('u' : Char) = '"'),
      if_neg (by decide : ¬ ('u' : Char) = '\\'),
      if_neg (by decide : ¬ ('u' : Char) = '/'),
      if_neg (by decide : ¬ ('u' : Char) = 'b'),
      if_neg (by decide : ¬ ('u' : Char) = 'f'),
      if_neg (by decide : ¬ ('u' : Char) = 'n'),
      if_neg (by decide : ¬ ('u' : Char) = 'r'),
      if_neg (by decide : ¬ ('u' : Char) = 't'),
      if_pos (rfl : ('u' : Char) = 'u')]
    rw [decHexEsc]
    simp only [d, hsum, Char.ofNat_toNat, if_neg hA, if_neg hB, if_true,
      ite_true, ite_false]
  · have hv : c.toNat < 0x110000 := by
      rcases charValidNat c with h | h <;> omega
    have hhi : 0xd800 ≤ 0xd800 + (c.toNat - 0x10000) / 0x400 ∧
        0xd800 + (c.toNat - 0x10000) / 0x400 < 0xdc00 := by omega
    have hlo : 0xdc00 ≤ 0xdc00 + (c.toNat - 0x10000) % 0x400 ∧
        0xdc00 + (c.toNat - 0x10000) % 0x400 < 0xe000 := by omega
    have hsumhi : decHex4 ((0xd800 + (c.toNat - 0x10000) / 0x400) / 4096 % 16)
        ((0xd800 + (c.toNat - 0x10000) / 0x400) / 256 % 16)
        ((0xd800 + (c.toNat - 0x10000) / 0x400) / 16 % 16)
        ((0xd800 + (c.toNat - 0x10000) / 0x400) % 16)
        = 0xd800 + (c.toNat - 0x10000) / 0x400 := by
      unfold decHex4; omega
    have hsumlo : decHex4 ((0xdc00 + (c.toNat - 0x10000) % 0x400) / 4096 % 16)
        ((0xdc00 + (c.toNat - 0x10000) % 0x400) / 256 % 16)
        ((0xdc00 + (c.toNat - 0x10000) % 0x400) / 16 % 16)
        ((0xdc00 + (c.toNat - 0x10000) % 0x400) % 16)
        = 0xdc00 + (c.toNat - 0x10000) % 0x400 := by
      unfold decHex4; omega
    have hcomb : 0x10000 + ((0xd800 + (c.toNat - 0x10000) / 0x400) - 0xd800) * 0x400 +
        ((0xdc00 + (c.toNat - 0x10000) % 0x400) - 0xdc00) = c.toNat := by omega
    simp only [encodeChar, h1, h2, h3, h4, h5, h6, h7, h8, h10, if_true,
      if_false, ite_true, ite_false, encHex4, List.cons_append, List.nil_append,
      List.append_assoc]
    rw [decStr]
    simp only [if_neg (by decide : ¬ ('\\' : Char) = '"'), if_pos rfl]
    rw [decEsc]
    simp only [if_neg (by decide : ¬ ('u' : Char) = '"'),
      if_neg (by decide : ¬ ('u' : Char) = '\\'),
      if_neg (by decide : ¬ ('u' : Char) = '/'),
      if_neg (by decide : ¬ ('u' : Char) = 'b'),
      if_neg (by decide : ¬ ('u' : Char) = 'f'),
      if_neg (by decide : ¬ ('u' : Char) = 'n'),
      if_neg (by decide : ¬ ('u' : Char) = 'r'),
      if_neg (by decide : ¬ ('u' : Char) = 't'),
      if_pos (rfl : ('u' : Char) = 'u')]
    rw [decHexEsc]
    simp only [d, hsumhi]
    rw [if_pos hhi]
    rw [decLowSur]
    rw [if_pos (show ('\\' : Char) = '\\' ∧ ('u' : Char) = 'u' from ⟨rfl, rfl⟩)]
    simp only [d, hsumlo]
    rw [if_pos hlo, hcomb, Char.ofNat_toNat]
    simp

/-- Decoding the encoded body of a string, followed by the closing quote,
recovers the string. -/
theorem decStr_encBody (l : List Char) : ∀ (strs : List String)
    (acc cs : List Char),
    decStr strs acc ((l.map encodeChar).flatten ++ ('"' :: cs)) =
      decAfter (String.mk (acc.reverse ++ l) :: strs) cs := by
  induction l with
  | nil =>
    intro strs acc cs
    simp [decStr]
  | cons c l ih =>
    intro strs acc cs
    have : ((c :: l).map encodeChar).flatten ++ ('"' :: cs) =
        encodeChar c ++ ((l.map encodeChar).flatten ++ ('"' :: cs)) := by
      simp [List.append_assoc]
    rw [this, decStr_encodeChar, ih]
    simp

/-- Proof helper: the characters an encoded list contributes after its first
element — `", "`-separated further elements, then the closing bracket. -/
def sepTail : List String → List Char
  | [] => [']']
  | y :: ys => ',' :: ' ' :: (encodeStr y ++ sepTail ys)

theorem sepJoin_encodeStr (x : String) (xs : List String) :
    sepJoin ((x :: xs).map encodeStr) ++ [']'] = encodeStr x ++ sepTail xs := by
  induction xs generalizing x with
  | nil => simp [sepJoin, sepTail]
  | cons y ys ih =>
    simp only [List.map_cons] at ih
    simp only [List.map_cons, sepJoin, sepTail, List.append_assoc,
      List.cons_append]
    rw [ih y]

theorem decAfter_sepTail (ys : List String) : ∀ strs : List String,
    decAfter strs (sepTail ys) = some (strs.reverse ++ ys, []) := by
  induction ys with
  | nil =>
    intro strs
    simp [sepTail, decAfter, isJsonWs]
  | cons y ys ih =>
    intro strs
    show decAfter strs (',' :: ' ' :: (encodeStr y ++ sepTail ys)) = _
    rw [decAfter]
    rw [if_neg (by decide), if_neg (by decide), if_pos rfl]
    rw [decComma]
    rw [if_pos (by decide)]
    have : encodeStr y ++ sepTail ys =
        '"' :: ((y.data.map encodeChar).flatten ++ ('"' :: sepTail ys)) := by
      simp [encodeStr]
    rw [this]
    rw [decComma]
    rw [if_neg (by decide), if_pos rfl]
    rw [decStr_encBody]
    simp only [List.reverse_nil, List.nil_append]
    rw [ih]
    simp

/-- Reading back the serialized form of a tag list yields the original list:
`json.loads` inverts `json.dumps` on every list of strings. -/
theorem jsonLoads_jsonDumps (l : List String) :
    jsonLoadsStringList (jsonDumpsStringList l) = some l := by
  unfold jsonLoadsStringList jsonDumpsStringList
  cases l with
  | nil =>
    simp [sepJoin, decHead, decTop, isJsonWs]
  | cons x xs =>
    show (match decHead ('[' :: (sepJoin ((x :: xs).map encodeStr) ++ [']'])) with
      | some (l, rest) => if rest.all isJsonWs then some l else none
      | none => none) = _
    rw [show '[' :: (sepJoin ((x :: xs).map encodeStr) ++ [']']) =
        '[' :: sepJoin ((x :: xs).map encodeStr) ++ [']'] by simp]
    rw [show ('[' : Char) :: sepJoin ((x :: xs).map encodeStr) ++ [']'] =
        '[' :: (sepJoin ((x :: xs).map encodeStr) ++ [']']) by simp]
    rw [sepJoin_encodeStr]
    rw [decHead]
    rw [if_neg (by decide), if_pos rfl]
    have : encodeStr x ++ sepTail xs =
        '"' :: ((x.data.map encodeChar).flatten ++ ('"' :: sepTail xs)) := by
      simp [encodeStr]
    rw [this, decTop]
    rw [if_neg (by decide), if_neg (by decide), if_pos rfl]
    rw [decStr_encBody]
    simp only [List.reverse_nil, List.nil_append]
    rw [decAfter_sepTail]
    simp

/-! ## TEXT ordering -/

/-- Lexicographic comparison of character lists by code point.  SQLite
compares TEXT values bytewise (memcmp of the UTF-8 encodings), and UTF-8
encoding preserves code-point order, so this models the `>=` of the
30-day-window predicate and the `ORDER BY timestamp DESC` sort. -/
def charListLe : List Char → List Char → Bool
  | [], _ => true
  | _ :: _, [] => false
  | a :: as, b :: bs =>
    if a.toNat < b.toNat then true
    else if b.toNat < a.toNat then false
    else charListLe as bs

/-- `a <= b` on TEXT values. -/
def strLe (a b : String) : Bool := charListLe a.data b.data

theorem charListLe_total : ∀ as bs,
    charListLe as bs = true ∨ charListLe bs as = true := by
  intro as
  induction as with
  | nil => intro bs; left; rfl
  | cons a as ih =>
    intro bs
    cases bs with
    | nil => right; rfl
    | cons b bs =>
      by_cases h1 : a.toNat < b.toNat
      · left; simp [charListLe, h1]
      · by_cases h2 : b.toNat < a.toNat
        · right; simp [charListLe, h2]
        · rcases ih bs with h | h
          · left; simp [charListLe, h1, h2, h]
          · right; simp [charListLe, h1, h2, h]

theorem charListLe_trans : ∀ as bs cs,
    charListLe as bs = true → charListLe bs cs = true →
    charListLe as cs = true := by
  intro as
  induction as with
  | nil => intro bs cs _ _; rfl
  | cons a as ih =>
    intro bs cs hab hbc
    cases bs with
    | nil => simp [charListLe] at hab
    | cons b bs =>
      cases cs with
      | nil => simp [charListLe] at hbc
      | cons c cs =>
        simp only [charListLe] at hab hbc ⊢
        by_cases h1 : a.toNat < b.toNat
        · by_cases h2 : b.toNat < c.toNat
          · simp [show a.toNat < c.toNat by omega]
          · by_cases h3 : c.toNat < b.toNat
            · simp [h2, h3] at hbc
            · simp [show a.toNat < c.toNat by omega]
        · by_cases h2 : b.toNat < a.toNat
          · simp [h1, h2] at hab
          · by_cases h3 : b.toNat < c.toNat
            · simp [show a.toNat < c.toNat by omega]
            · by_cases h4 : c.toNat < b.toNat
              · simp [h3, h4] at hbc
              · have h5 : ¬ a.toNat < c.toNat := by omega
                have h6 : ¬ c.toNat < a.toNat := by omega
                simp only [h1, h2, if_false] at hab
                simp only [h3, h4, if_false] at hbc
                simp [h5, h6, ih bs cs hab hbc]

theorem strLe_total (a b : String) : strLe a b = true ∨ strLe b a = true :=
  charListLe_total a.data b.data

theorem strLe_trans {a b c : String} (h1 : strLe a b = true)
    (h2 : strLe b c = true) : strLe a c = true :=
  charListLe_trans a.data b.data c.data h1 h2

/-! ## Data model

The five tables of the schema and the in-memory state of
`DatabaseVideoRecommender`.  `AUTOINCREMENT` integer keys are represented by
row order; REAL columns by rationals; `datetime.now().isoformat()` values are
supplied as explicit `timestamp` arguments. -/

/-- The in-memory `Video` dataclass of `algorithm.py`, whose fields are fixed
by the `videos` schema and the constructor calls in this repository.  The
`embedding` numpy `float64` array is modelled by its `tobytes` serialization
(a list of bytes), which determines it. -/
structure Video where
  id : String
  title : String
  description : String
  tags : List String
  category : String
  duration : Int
  upload_date : String
  views : Int
  likes : Int
  creator : String
  embedding : Option (List Nat) := none
deriving DecidableEq

/-- A row of the `videos` table. -/
structure VideoRow where
  id : String
  title : String
  description : String
  tags : Option String
  category : String
  duration : Int
  upload_date : String
  views : Int
  likes : Int
  creator : String
  embedding : Option (List Nat)
deriving DecidableEq

/-- A row of the `user_profiles` table. -/
structure ProfileRow where
  user_id : String
  preferences : Option String
  created_at : String
  updated_at : String
deriving DecidableEq

/-- A row of the `watch_history` table. -/
structure WatchRow where
  user_id : String
  video_id : String
  timestamp : String
  rating : Option Rat
deriving DecidableEq

/-- A row of the `liked_videos` table. -/
structure LikeRow where
  user_id : String
  video_id : String
  timestamp : String
deriving DecidableEq

/-- A row of the `recommendation_logs` table. -/
structure RecRow where
  user_id : String
  video_id : String
  recommendation_score : Rat
  timestamp : String
  recommendation_type : String
deriving DecidableEq

/-- The durable SQLite state. -/
structure DB where
  videos : List VideoRow
  user_profiles : List ProfileRow
  watch_history : List WatchRow
  liked_videos : List LikeRow
  recommendation_logs : List RecRow
deriving DecidableEq

/-- One entry of a user's in-memory watch-history list, as built by
`load_user_profiles_from_db` (the `pd.Timestamp` wraps the stored ISO text
and is modelled by that text). -/
structure WatchEntry where
  video_id : String
  timestamp : String
  rating : Option Rat
deriving DecidableEq

/-- A user's in-memory profile dict.  The parsed preferences document is a
function of the stored JSON text, so it is modelled by that text; `none`
stands for the empty default `{}` taken when the cell is NULL or empty
(`json.loads(row[1]) if row[1] else {}`). -/
structure UserProfile where
  preferences : Option String
  watch_history : List WatchEntry
  liked_videos : List String
  disliked_videos : List String
deriving DecidableEq

/-- The in-memory dict `self.user_profiles`, as an insertion-ordered
association list (Python 3.7+ dict semantics: updating an existing key keeps
its position, a new key is appended). -/
abbrev ProfMap := List (String × UserProfile)

/-- In-memory state of the recommender: `self.videos` and
`self.user_profiles`. -/
structure Mem where
  videos : List Video
  user_profiles : ProfMap
deriving DecidableEq

/-- `user_id in self.user_profiles`. -/
def hasProf (m : ProfMap) (uid : String) : Prop :=
  ∃ e ∈ m, e.1 = uid

instance decHasProf (m : ProfMap) (uid : String) : Decidable (hasProf m uid) :=
  List.decidableBEx _ m

/-- `self.user_profiles[user_id] = p` (update in place, or append the new
key). -/
def setProf (m : ProfMap) (uid : String) (p : UserProfile) : ProfMap :=
  if hasProf m uid then
    m.map (fun e => if e.1 = uid then (uid, p) else e)
  else m ++ [(uid, p)]

/-- `self.user_profiles[user_id]` (first binding; an actual dict has unique
keys). -/
def lookupProf : ProfMap → String → Option UserProfile
  | [], _ => none
  | e :: m, uid => if e.1 = uid then some e.2 else lookupProf m uid

/-- In-place mutation of one user's profile value. -/
def modifyProf (m : ProfMap) (uid : String) (f : UserProfile → UserProfile) :
    ProfMap :=
  m.map (fun e => if e.1 = uid then (e.1, f e.2) else e)

/-! ## Database operations of `DatabaseVideoRecommender` -/

/-- `add_video_to_db`: serializes the video (tags as
`json.dumps(video.tags) if video.tags else "[]"`) and `INSERT OR REPLACE`s
it — the row with the same primary key, if any, is deleted and the new row
inserted. -/
def add_video_to_db (db : DB) (video : Video) : DB :=
  let tags_json :=
    if video.tags.isEmpty then "[]" else jsonDumpsStringList video.tags
  let row : VideoRow :=
    { id := video.id, title := video.title, description := video.description,
      tags := some tags_json, category := video.category,
      duration := video.duration, upload_date := video.upload_date,
      views := video.views, likes := video.likes, creator := video.creator,
      embedding := video.embedding }
  { db with videos :=
      db.videos.filter (fun r => decide (¬ r.id = video.id)) ++ [row] }

/-- Deserialization of one `videos` row (the loop body of
`load_videos_from_db`): `tags = json.loads(row[3]) if row[3] else []`.
`json.loads` raises on a malformed cell in Python; the model totalizes that
case with `[]` (no operation in this development stores such a cell). -/
def rowToVideo (r : VideoRow) : Video :=
  { id := r.id, title := r.title, description := r.description,
    tags := match r.tags with
      | none => []
      | some s => if s.isEmpty then [] else (jsonLoadsStringList s).getD [],
    category := r.category, duration := r.duration,
    upload_date := r.upload_date, views := r.views, likes := r.likes,
    creator := r.creator, embedding := r.embedding }

/-- `load_videos_from_db`: reads every `videos` row and replaces the
in-memory catalog (`self.videos = videos`) with their deserialization. -/
def load_videos_from_db (db : DB) (m : Mem) : Mem :=
  { m with videos := db.videos.map rowToVideo }

/-- Insertion step of the model of the `ORDER BY timestamp DESC` sort of the
watch-history query (SQLite TEXT ordering is lexicographic; the order among
equal timestamps is unspecified and this model fixes one). -/
def insertDesc (w : WatchRow) : List WatchRow → List WatchRow
  | [] => [w]
  | x :: xs =>
    if strLe x.timestamp w.timestamp then w :: x :: xs
    else x :: insertDesc w xs

/-- `SELECT ... FROM watch_history ORDER BY timestamp DESC`. -/
def sortByTimestampDesc (l : List WatchRow) : List WatchRow :=
  l.foldr insertDesc []

/-- The preferences value `load_user_profiles_from_db` builds from a
`preferences` cell: `json.loads(row[1]) if row[1] else {}`, with `none`
standing for the `{}` default. -/
def prefsCell : Option String → Option String
  | none => none
  | some s => if s.isEmpty then none else some s

/-- The fresh in-memory profile `load_user_profiles_from_db` creates for a
`user_profiles` row: parsed preferences, empty history/liked/disliked
lists. -/
def initProfile (r : ProfileRow) : UserProfile :=
  { preferences := prefsCell r.preferences, watch_history := [],
    liked_videos := [], disliked_videos := [] }

/-- The in-memory watch-history entry built from a `watch_history` row. -/
def watchEntry (w : WatchRow) : WatchEntry :=
  { video_id := w.video_id, timestamp := w.timestamp, rating := w.rating }

/-- Append of one watch entry to a profile
(`...['watch_history'].append({...})`). -/
def addWatchEntry (w : WatchRow) (p : UserProfile) : UserProfile :=
  { p with watch_history := p.watch_history ++ [watchEntry w] }

/-- Append of one liked video id to a profile
(`...['liked_videos'].append(video_id)`). -/
def addLikedId (l : LikeRow) (p : UserProfile) : UserProfile :=
  { p with liked_videos := p.liked_videos ++ [l.video_id] }

/-- `load_user_profiles_from_db`: (re)initializes an in-memory profile for
every `user_profiles` row, then appends each watch row — most recent first —
and then each liked row to its user's lists, for user ids present in the
in-memory dict.  The dict is not cleared first. -/
def load_user_profiles_from_db (db : DB) (m : Mem) : Mem :=
  let m1 := db.user_profiles.foldl
    (fun acc r => setProf acc r.user_id (initProfile r))
    m.user_profiles
  let m2 := (sortByTimestampDesc db.watch_history).foldl
    (fun acc w =>
      if hasProf acc w.user_id then modifyProf acc w.user_id (addWatchEntry w)
      else acc)
    m1
  let m3 := db.liked_videos.foldl
    (fun acc l =>
      if hasProf acc l.user_id then modifyProf acc l.user_id (addLikedId l)
      else acc)
    m2
  { m with user_profiles := m3 }

/-- The full reload: `load_videos_from_db` then `load_user_profiles_from_db`
(the order used by `train_with_db_data` and `demo_database_functionality`). -/
def reloadAll (db : DB) (m : Mem) : Mem :=
  load_user_profiles_from_db db (load_videos_from_db db m)

/-- `log_recommendation`: appends one `recommendation_logs` row. -/
def log_recommendation (db : DB) (user_id video_id : String) (score : Rat)
    (timestamp : String) (rec_type : String) : DB :=
  { db with recommendation_logs := db.recommendation_logs ++
      [{ user_id := user_id, video_id := video_id,
         recommendation_score := score, timestamp := timestamp,
         recommendation_type := rec_type }] }

/-- `update_video_stats`:
`UPDATE videos SET views = views + ?, likes = likes + ? WHERE id = ?` —
every row whose `id` matches is incremented; with no match the update is a
no-op. -/
def update_video_stats (db : DB) (video_id : String)
    (views_delta likes_delta : Int) : DB :=
  { db with videos := db.videos.map (fun r =>
      if r.id = video_id then
        { r with views := r.views + views_delta,
                 likes := r.likes + likes_delta }
      else r) }

/-- Modelled from the spec: the in-memory effect of the base class
`LLMVideoRecommender.update_user_watch_history` (file `algorithm.py`, which
is not part of this repository) — §4.3: the watch event is added to the
user's in-memory most-recent-first watch-history view.  No theorem below
depends on this modelled step. -/
def memRecordWatch (m : Mem) (user_id video_id : String) (rating : Option Rat)
    (timestamp : String) : Mem :=
  { m with user_profiles :=
      modifyProf m.user_profiles user_id (fun p =>
        { p with watch_history :=
            { video_id := video_id, timestamp := timestamp,
              rating := rating } :: p.watch_history }) }

/-- `update_user_watch_history`: the base-class in-memory update, then
`INSERT` of one `watch_history` row with the given (possibly NULL) rating,
then `update_video_stats(video_id, views_delta=1)`. -/
def update_user_watch_history (db : DB) (m : Mem) (user_id video_id : String)
    (rating : Option Rat) (timestamp : String) : DB × Mem :=
  let m1 := memRecordWatch m user_id video_id rating timestamp
  let db1 := { db with watch_history := db.watch_history ++
      [{ user_id := user_id, video_id := video_id, timestamp := timestamp,
         rating := rating }] }
  let db2 := update_video_stats db1 video_id 1 0
  (db2, m1)

/-- `like_video`: `INSERT` of one `liked_videos` row, then
`update_video_stats(video_id, likes_delta=1)`, then — only when the user has
an in-memory profile — append of the video id to the in-memory liked list if
it is absent. -/
def like_video (db : DB) (m : Mem) (user_id video_id : String)
    (timestamp : String) : DB × Mem :=
  let db1 := { db with liked_videos := db.liked_videos ++
      [{ user_id := user_id, video_id := video_id, timestamp := timestamp }] }
  let db2 := update_video_stats db1 video_id 0 1
  let m1 :=
    if hasProf m.user_profiles user_id then
      { m with user_profiles := modifyProf m.user_profiles user_id (fun p =>
          if video_id ∈ p.liked_videos then p
          else { p with liked_videos := p.liked_videos ++ [video_id] }) }
    else m
  (db2, m1)

/-- The dict returned by `get_recommendation_effectiveness`. -/
structure Effectiveness where
  total_recommendations : Nat
  clicked_recommendations : Nat
  click_through_rate : Rat
  avg_rating : Rat
deriving DecidableEq

/-- The `w.rating` values one recommendation row contributes under
`LEFT JOIN watch_history w ON r.video_id = w.video_id AND r.user_id =
w.user_id`: one NULL row when nothing matches, otherwise one row per match —
whose selected rating is itself NULL when that watch row's rating is NULL. -/
def joinRatings (db : DB) (r : RecRow) : List (Option Rat) :=
  let ms := db.watch_history.filter
    (fun w => w.video_id == r.video_id && w.user_id == r.user_id)
  if ms.isEmpty then [none] else ms.map (fun w => w.rating)

/-- The `WHERE` clause of the effectiveness query:
`r.timestamp >= date('now','-30 days')` (lexicographic TEXT comparison
against the cutoff date string, here the `cutoff` argument) and, only when a
truthy (non-`None`, non-empty) `user_id` was passed, `r.user_id = ?`. -/
def effSelected (cutoff : String) (user_id : Option String) (r : RecRow) :
    Bool :=
  strLe cutoff r.timestamp &&
    (match user_id with
     | none => true
     | some u => if u.isEmpty then true else r.user_id == u)

/-- The rows `get_recommendation_effectiveness` fetches: each in-scope
recommendation row paired with each of its LEFT JOIN rating values. -/
def effRows (db : DB) (cutoff : String) (user_id : Option String) :
    List (RecRow × Option Rat) :=
  ((db.recommendation_logs.filter (effSelected cutoff user_id)).map
    (fun r => (joinRatings db r).map (fun o => (r, o)))).flatten

/-- `get_recommendation_effectiveness`: counts the fetched rows, counts those
with a non-NULL `w.rating` as clicked, and averages the non-NULL ratings. -/
def get_recommendation_effectiveness (db : DB) (cutoff : String)
    (user_id : Option String) : Effectiveness :=
  let rows := effRows db cutoff user_id
  let total_recommendations := rows.length
  let clicked_recommendations := (rows.filter (fun p => p.2.isSome)).length
  let avg_rating :=
    if clicked_recommendations > 0 then
      (rows.filterMap (fun p => p.2)).sum /
        ((max 1 clicked_recommendations : Nat) : Rat)
    else 0
  { total_recommendations := total_recommendations,
    clicked_recommendations := clicked_recommendations,
    click_through_rate := (clicked_recommendations : Rat) /
      ((max 1 total_recommendations : Nat) : Rat),
    avg_rating := avg_rating }

/-- The logging loop of `get_personalized_recommendations_with_feedback`;
the `k`-th `log_recommendation` call stamps `clock k`. -/
def logRecs (db : DB) (user_id : String) (clock : Nat → String) (k : Nat) :
    List (Video × Rat) → DB
  | [] => db
  | (v, s) :: rest =>
    logRecs (log_recommendation db user_id v.id s (clock k) "personalized")
      user_id clock (k + 1) rest

/-- `get_personalized_recommendations_with_feedback`: obtains the ranking
(the base class `get_recommendations`, abstracted as the `ranked` argument),
logs one recommendation row per returned pair with type `"personalized"`,
and returns the list unchanged. -/
def get_personalized_recommendations_with_feedback (db : DB)
    (ranked : String → Nat → List (Video × Rat)) (user_id : String)
    (n_recommendations : Nat) (clock : Nat → String) :
    DB × List (Video × Rat) :=
  let recommendations := ranked user_id n_recommendations
  (logRecs db user_id clock 0 recommendations, recommendations)

/-! ## Derived observations used by the statements -/

/-- The `views` value of the (first) `videos` row with the given id. -/
def viewsOf (db : DB) (video_id : String) : Option Int :=
  (db.videos.find? (fun r => decide (r.id = video_id))).map (fun r => r.views)

/-- The `likes` value of the (first) `videos` row with the given id. -/
def likesOf (db : DB) (video_id : String) : Option Int :=
  (db.videos.find? (fun r => decide (r.id = video_id))).map (fun r => r.likes)

/-- The last `user_profiles` row with the given user id — the one whose
`setProf` write survives the profile-loading loop. -/
def lastProfileRow (x : String) : List ProfileRow → Option ProfileRow
  | [] => none
  | r :: rows =>
    match lastProfileRow x rows with
    | some r' => some r'
    | none => if r.user_id = x then some r else none

/-- Net effect of the watch-loading loop on one user's profile value. -/
def applyWatches (db : DB) (x : String) (p : UserProfile) : UserProfile :=
  ((sortByTimestampDesc db.watch_history).filter
    (fun w => decide (w.user_id = x))).foldl (fun q w => addWatchEntry w q) p

/-- Net effect of the liked-loading loop on one user's profile value. -/
def applyLikes (db : DB) (x : String) (p : UserProfile) : UserProfile :=
  (db.liked_videos.filter (fun l => decide (l.user_id = x))).foldl
    (fun q l => addLikedId l q) p

/-- A sequence of `like_video` calls, each given as
(user_id, video_id, timestamp). -/
def applyLikeCalls (dbm : DB × Mem) (calls : List (String × String × String)) :
    DB × Mem :=
  calls.foldl (fun s c => like_video s.1 s.2 c.1 c.2.1 c.2.2) dbm

/-- No user's in-memory liked-video list contains a duplicate id. -/
def nodupLiked (m : Mem) : Prop :=
  ∀ e ∈ m.user_profiles, e.2.liked_videos.Nodup

instance decNodupLiked (m : Mem) : Decidable (nodupLiked m) :=
  inferInstanceAs (Decidable (∀ e ∈ m.user_profiles, e.2.liked_videos.Nodup))

/-- Equality of two in-memory videos on every schema field, the derived
`embedding` vector excepted. -/
def sameVideoFields (a b : Video) : Prop :=
  a.id = b.id ∧ a.title = b.title ∧ a.description = b.description ∧
  a.tags = b.tags ∧ a.category = b.category ∧ a.duration = b.duration ∧
  a.upload_date = b.upload_date ∧ a.views = b.views ∧ a.likes = b.likes ∧
  a.creator = b.creator

/-! ## Dictionary lemmas -/

theorem hasProf_iff (m : ProfMap) (x : String) :
    hasProf m x ↔ (lookupProf m x).isSome = true := by
  induction m with
  | nil => simp [hasProf, lookupProf]
  | cons e m ih =>
    by_cases hex : e.1 = x <;> simp [hasProf, lookupProf, hex, ← ih, hasProf]

theorem lookupProf_appendProf (m : ProfMap) (u x : String) (p : UserProfile) :
    lookupProf (m ++ [(u, p)]) x =
      match lookupProf m x with
      | some q => some q
      | none => if u = x then some p else none := by
  induction m with
  | nil => simp [lookupProf]
  | cons e m ih =>
    by_cases hex : e.1 = x <;> simp [lookupProf, hex, ih]

theorem lookupProf_mapset (m : ProfMap) (u x : String) (p : UserProfile) :
    lookupProf (m.map (fun e => if e.1 = u then (u, p) else e)) x =
      if x = u then (if hasProf m u then some p else none)
      else lookupProf m x := by
  induction m with
  | nil => simp [lookupProf, hasProf]
  | cons e m ih =>
    by_cases he : e.1 = u
    · by_cases hx : x = u
      · subst hx
        simp [lookupProf, he, hasProf]
      · have hux : ¬ u = x := fun hh => hx hh.symm
        simp [lookupProf, he, hx, hux, ih]
    · by_cases hx : x = u
      · subst hx
        have : hasProf (e :: m) x ↔ hasProf m x := by
          simp [hasProf, he]
        simp [lookupProf, he, ih, this]
      · by_cases hex : e.1 = x <;> simp [lookupProf, he, hex, hx, ih]

theorem lookupProf_setProf (m : ProfMap) (u x : String) (p : UserProfile) :
    lookupProf (setProf m u p) x =
      if x = u then some p else lookupProf m x := by
  unfold setProf
  by_cases hh : hasProf m u
  · rw [if_pos hh, lookupProf_mapset]
    by_cases hx : x = u <;> simp [hx, hh]
  · rw [if_neg hh, lookupProf_appendProf]
    by_cases hx : x = u
    · subst hx
      have hnone : lookupProf m x = none := by
        cases hl : lookupProf m x with
        | none => rfl
        | some q =>
          exact absurd ((hasProf_iff m x).mpr (by simp [hl])) hh
      simp [hnone]
    · have hux : ¬ u = x := fun hh2 => hx hh2.symm
      cases hl : lookupProf m x <;> simp [hl, hux, hx]

theorem lookupProf_modifyProf (m : ProfMap) (u x : String)
    (f : UserProfile → UserProfile) :
    lookupProf (modifyProf m u f) x =
      if x = u then (lookupProf m u).map f else lookupProf m x := by
  induction m with
  | nil => simp [modifyProf, lookupProf]
  | cons e m ih =>
    unfold modifyProf at ih ⊢
    by_cases he : e.1 = u
    · by_cases hx : x = u
      · subst hx
        simp [lookupProf, he]
      · have hux : ¬ u = x := fun hh => hx hh.symm
        simp [lookupProf, he, hx, hux, ih]
    · by_cases hx : x = u
      · subst hx
        simp [lookupProf, he, ih]
      · by_cases hex : e.1 = x <;> simp [lookupProf, he, hex, hx, ih]

theorem lookupProf_foldl_setProf :
    ∀ (rows : List ProfileRow) (m : ProfMap) (x : String),
    lookupProf
        (rows.foldl (fun acc r => setProf acc r.user_id (initProfile r)) m) x =
      match lastProfileRow x rows with
      | some r => some (initProfile r)
      | none => lookupProf m x := by
  intro rows
  induction rows with
  | nil => intro m x; rfl
  | cons r rows ih =>
    intro m x
    rw [List.foldl_cons, ih]
    cases hl : lastProfileRow x rows with
    | some r' => simp [lastProfileRow, hl]
    | none =>
      simp only [lastProfileRow, hl]
      rw [lookupProf_setProf]
      by_cases hx : x = r.user_id
      · simp [hx]
      · have hrx : ¬ r.user_id = x := fun hh => hx hh.symm
        simp [hx, hrx]

theorem lookupProf_foldl_modify {α : Type} (key : α → String)
    (g : α → UserProfile → UserProfile) :
    ∀ (rows : List α) (m : ProfMap) (x : String),
    lookupProf (rows.foldl
        (fun acc a =>
          if hasProf acc (key a) then modifyProf acc (key a) (g a) else acc)
        m) x =
      (lookupProf m x).map
        (fun p => (rows.filter (fun a => decide (key a = x))).foldl
          (fun q a => g a q) p) := by
  intro rows
  induction rows with
  | nil =>
    intro m x
    simp
  | cons a rows ih =>
    intro m x
    rw [List.foldl_cons, ih]
    by_cases hk : key a = x
    · subst hk
      by_cases hh : hasProf m (key a)
      · rw [if_pos hh, lookupProf_modifyProf]
        rw [if_pos rfl]
        have hsome : (lookupProf m (key a)).isSome = true := (hasProf_iff _ _).mp hh
        cases hl : lookupProf m (key a) with
        | none => rw [hl] at hsome; simp at hsome
        | some p => simp [hl, List.filter_cons]
      · rw [if_neg hh]
        have hnone : lookupProf m (key a) = none := by
          cases hl : lookupProf m (key a) with
          | none => rfl
          | some p => exact absurd ((hasProf_iff _ _).mpr (by simp [hl])) hh
        simp [hnone]
    · have hfil : List.filter (fun a2 => decide (key a2 = x)) (a :: rows) =
          List.filter (fun a2 => decide (key a2 = x)) rows := by
        simp [List.filter_cons, hk]
      by_cases hh : hasProf m (key a)
      · rw [if_pos hh, lookupProf_modifyProf,
          if_neg (show ¬ x = key a from fun h2 => hk h2.symm), hfil]
      · rw [if_neg hh, hfil]

/-- What one reload of the profile dict makes of one user id: users with a
`user_profiles` row get a fresh profile built from their last row; others
keep their previous in-memory value; both then receive the watch/like
appends. -/
theorem lookupProf_load_profiles (db : DB) (m : Mem) (x : String) :
    lookupProf (load_user_profiles_from_db db m).user_profiles x =
      (match lastProfileRow x db.user_profiles with
       | some r => some (initProfile r)
       | none => lookupProf m.user_profiles x).map
        (fun p => applyLikes db x (applyWatches db x p)) := by
  simp only [load_user_profiles_from_db]
  rw [lookupProf_foldl_modify LikeRow.user_id addLikedId]
  rw [lookupProf_foldl_modify WatchRow.user_id addWatchEntry]
  rw [lookupProf_foldl_setProf]
  cases hl : lastProfileRow x db.user_profiles with
  | none =>
    simp only [applyLikes, applyWatches, Option.map_map]
    rfl
  | some r =>
    simp [applyLikes, applyWatches, Option.map_map]

/-! ## Concrete states used by counterexamples and witnesses -/

/-- The empty database. -/
def emptyDB : DB :=
  { videos := [], user_profiles := [], watch_history := [],
    liked_videos := [], recommendation_logs := [] }

/-- The empty in-memory state. -/
def emptyMem : Mem := { videos := [], user_profiles := [] }

/-- An in-memory state with one registered user (empty lists). -/
def oneUserMem : Mem :=
  { videos := [],
    user_profiles := [("u1", { preferences := none, watch_history := [],
                               liked_videos := [], disliked_videos := [] })] }

/-- One served recommendation for (u1, v1) inside the window, and one
matching watch row whose rating is NULL. -/
def nullRatingDB : DB :=
  { videos := [], user_profiles := [],
    watch_history := [{ user_id := "u1", video_id := "v1",
                        timestamp := "2024-01-02T00:00:00", rating := none }],
    liked_videos := [],
    recommendation_logs := [{ user_id := "u1", video_id := "v1",
                              recommendation_score := 1,
                              timestamp := "2024-01-03T00:00:00",
                              recommendation_type := "personalized" }] }

/-- One served recommendation for (u1, v1) inside the window, and two
matching watch rows. -/
def fanoutDB : DB :=
  { videos := [], user_profiles := [],
    watch_history :=
      [{ user_id := "u1", video_id := "v1",
         timestamp := "2024-01-02T00:00:00", rating := some 4 },
       { user_id := "u1", video_id := "v1",
         timestamp := "2024-01-05T00:00:00", rating := some 5 }],
    liked_videos := [],
    recommendation_logs := [{ user_id := "u1", video_id := "v1",
                              recommendation_score := 1,
                              timestamp := "2024-01-03T00:00:00",
                              recommendation_type := "personalized" }] }

/-! ## Claim theorems -/

/-- C1: the spec states that a recommendation whose (user, video) pair has a
matching watch row counts as clicked even when every matching row's rating is
NULL — rating presence must not affect the click determination.  The code
instead tests the joined `w.rating` column for NULL (despite its own comment
"Has watch history entry"): on `nullRatingDB`, (u1, v1) has exactly one
matching watch row, yet `clicked_recommendations` is 0 while the
recommendation is counted in the total.  The claim is right and the code
wrong. -/
theorem clicked_ignores_match_with_null_rating :
    (nullRatingDB.watch_history.filter (fun w =>
        w.video_id == "v1" && w.user_id == "u1")).length = 1 ∧
    (get_recommendation_effectiveness nullRatingDB "2024-01-01"
        none).total_recommendations = 1 ∧
    (get_recommendation_effectiveness nullRatingDB "2024-01-01"
        none).clicked_recommendations = 0 := by
  decide

/-- C2: the spec states `total_recommendations` equals the number of
`recommendation_logs` rows in the window, independent of how many watch rows
match.  The code counts the rows of the LEFT JOIN, so each recommendation is
multiplied by its number of matches: on `fanoutDB` one logged recommendation
with two matching watch rows yields `total_recommendations = 2`.  The claim
is right and the code wrong. -/
theorem total_recommendations_counts_join_rows :
    fanoutDB.recommendation_logs.length = 1 ∧
    (get_recommendation_effectiveness fanoutDB "2024-01-01"
        none).total_recommendations = 2 := by
  decide

/-- C9: when no `recommendation_logs` row lies in the trailing window (in
particular on an empty database), `get_recommendation_effectiveness` returns
exactly zero for all four metrics, with no division by zero. -/
theorem effectiveness_zero_when_no_recs (db : DB) (cutoff : String)
    (user_id : Option String)
    (h : ∀ r ∈ db.recommendation_logs, strLe cutoff r.timestamp = false) :
    get_recommendation_effectiveness db cutoff user_id =
      { total_recommendations := 0, clicked_recommendations := 0,
        click_through_rate := 0, avg_rating := 0 } := by
  have hf : db.recommendation_logs.filter (effSelected cutoff user_id) = [] := by
    rw [List.filter_eq_nil_iff]
    intro r hr
    simp [effSelected, h r hr]
  simp [get_recommendation_effectiveness, effRows, hf]

theorem effectiveness_zero_when_no_recs_witness :
    get_recommendation_effectiveness emptyDB "2024-01-01" none =
      { total_recommendations := 0, clicked_recommendations := 0,
        click_through_rate := 0, avg_rating := 0 } :=
  effectiveness_zero_when_no_recs emptyDB "2024-01-01" none
    (by simp [emptyDB])

theorem logRecs_eq :
    ∀ (recs : List (Video × Rat)) (db : DB) (user_id : String)
      (clock : Nat → String) (k : Nat),
    logRecs db user_id clock k recs =
      { db with recommendation_logs := db.recommendation_logs ++
          (recs.enumFrom k).map (fun p =>
            { user_id := user_id, video_id := p.2.1.id,
              recommendation_score := p.2.2, timestamp := clock p.1,
              recommendation_type := "personalized" }) } := by
  intro recs
  induction recs with
  | nil => intro db u c k; simp [logRecs]
  | cons vs recs ih =>
    intro db u c k
    obtain ⟨v, s⟩ := vs
    rw [logRecs, ih]
    simp [log_recommendation, List.enumFrom]

/-- C3: `get_personalized_recommendations_with_feedback` returns exactly the
list the underlying ranking call produced, and appends exactly one
`recommendation_logs` row per returned (video, score) pair, carrying that
video's id, that score and the `"personalized"` tag (the `k`-th insert
stamped `clock k`). -/
theorem serve_recommendations_logs_and_returns (db : DB)
    (ranked : String → Nat → List (Video × Rat)) (user_id : String)
    (n_recommendations : Nat) (clock : Nat → String) :
    (get_personalized_recommendations_with_feedback db ranked user_id
        n_recommendations clock).2 = ranked user_id n_recommendations ∧
    (get_personalized_recommendations_with_feedback db ranked user_id
        n_recommendations clock).1.recommendation_logs =
      db.recommendation_logs ++
        ((ranked user_id n_recommendations).enum.map (fun p =>
          { user_id := user_id, video_id := p.2.1.id,
            recommendation_score := p.2.2, timestamp := clock p.1,
            recommendation_type := "personalized" })) := by
  constructor
  · rfl
  · show (logRecs db user_id clock 0
        (ranked user_id n_recommendations)).recommendation_logs = _
    rw [logRecs_eq]
    simp [List.enum]

/-- C8 counterexample: the claim says a like for a user with no profile still
"creates the derived in-memory liked-videos entry lazily".  It does not: with
an empty in-memory dict, `like_video` appends the durable like row but the
dict still has no entry for the user afterwards. -/
theorem like_video_no_profile_cx :
    lookupProf (like_video emptyDB emptyMem "u1" "v1" "t1").2.user_profiles
        "u1" = none ∧
    (like_video emptyDB emptyMem "u1" "v1" "t1").1.liked_videos =
      [{ user_id := "u1", video_id := "v1", timestamp := "t1" }] := by
  decide

/-- C8 (amended): `like_video` for a user with no in-memory profile still
succeeds: it appends the durable like-event row and creates no phantom
`user_profiles` row — but it creates no in-memory entry either; the
in-memory state is left entirely unchanged. -/
theorem like_video_unknown_user (db : DB) (m : Mem) (u v t : String)
    (h : ¬ hasProf m.user_profiles u) :
    (like_video db m u v t).1.liked_videos =
      db.liked_videos ++ [{ user_id := u, video_id := v, timestamp := t }] ∧
    (like_video db m u v t).1.user_profiles = db.user_profiles ∧
    (like_video db m u v t).2 = m := by
  simp [like_video, update_video_stats, h]

theorem like_video_unknown_user_witness :
    ¬ hasProf emptyMem.user_profiles "u1" ∧
    ((like_video emptyDB emptyMem "u1" "v1" "t1").1.liked_videos =
      emptyDB.liked_videos ++
        [{ user_id := "u1", video_id := "v1", timestamp := "t1" }] ∧
    (like_video emptyDB emptyMem "u1" "v1" "t1").1.user_profiles =
      emptyDB.user_profiles ∧
    (like_video emptyDB emptyMem "u1" "v1" "t1").2 = emptyMem) :=
  ⟨by decide, like_video_unknown_user emptyDB emptyMem "u1" "v1" "t1"
    (by decide)⟩

/-- C10: for a video id with no `videos` row, recording a watch or a like
still completes: the event row is appended, and the `UPDATE` matches no row,
so no `videos` row is created and every existing row is unchanged — the
counter increment is silently lost. -/
theorem dangling_video_frame (db : DB) (m : Mem) (u v t : String)
    (rating : Option Rat) (h : ∀ r ∈ db.videos, ¬ r.id = v) :
    (update_user_watch_history db m u v rating t).1.videos = db.videos ∧
    (update_user_watch_history db m u v rating t).1.watch_history =
      db.watch_history ++
        [{ user_id := u, video_id := v, timestamp := t, rating := rating }] ∧
    (like_video db m u v t).1.videos = db.videos ∧
    (like_video db m u v t).1.liked_videos =
      db.liked_videos ++ [{ user_id := u, video_id := v, timestamp := t }] := by
  have hone : ∀ (l : List VideoRow) (vd ld : Int), (∀ r ∈ l, ¬ r.id = v) →
      l.map (fun r =>
        if r.id = v then
          { r with views := r.views + vd, likes := r.likes + ld }
        else r) = l := by
    intro l vd ld hl
    induction l with
    | nil => rfl
    | cons r l ih =>
      have h1 : ¬ r.id = v := hl r (by simp)
      have h2 := ih (fun r2 hr2 => hl r2 (by simp [hr2]))
      simp [h1, h2]
  have hw := hone db.videos 1 0 h
  have hl2 := hone db.videos 0 1 h
  simp only [add_zero] at hw hl2
  refine ⟨?_, ?_, ?_, ?_⟩ <;>
    simp [update_user_watch_history, like_video, update_video_stats, hw, hl2]

theorem dangling_video_frame_witness :
    (∀ r ∈ emptyDB.videos, ¬ r.id = "v1") ∧
    ((update_user_watch_history emptyDB emptyMem "u1" "v1" none
        "t1").1.videos = emptyDB.videos ∧
    (update_user_watch_history emptyDB emptyMem "u1" "v1" none
        "t1").1.watch_history =
      emptyDB.watch_history ++
        [{ user_id := "u1", video_id := "v1", timestamp := "t1",
           rating := none }] ∧
    (like_video emptyDB emptyMem "u1" "v1" "t1").1.videos =
      emptyDB.videos ∧
    (like_video emptyDB emptyMem "u1" "v1" "t1").1.liked_videos =
      emptyDB.liked_videos ++
        [{ user_id := "u1", video_id := "v1", timestamp := "t1" }]) :=
  ⟨by simp [emptyDB], dangling_video_frame emptyDB emptyMem "u1" "v1" "t1"
    none (by simp [emptyDB])⟩

theorem find?_update_stats (l : List VideoRow) (vid : String) (vd ld : Int) :
    (l.map (fun r =>
      if r.id = vid then
        { r with views := r.views + vd, likes := r.likes + ld }
      else r)).find? (fun r => decide (r.id = vid)) =
    (l.find? (fun r => decide (r.id = vid))).map
      (fun r => { r with views := r.views + vd, likes := r.likes + ld }) := by
  induction l with
  | nil => rfl
  | cons r l ih =>
    by_cases hr : r.id = vid
    · simp [List.find?_cons, hr]
    · simp [List.find?_cons, hr, ih]

theorem likesOf_update_video_stats (db : DB) (vid : String) (vd ld : Int) :
    likesOf (update_video_stats db vid vd ld) vid =
      (likesOf db vid).map (fun k => k + ld) := by
  simp only [likesOf, update_video_stats, find?_update_stats, Option.map_map]
  rfl

theorem viewsOf_update_video_stats (db : DB) (vid : String) (vd ld : Int) :
    viewsOf (update_video_stats db vid vd ld) vid =
      (viewsOf db vid).map (fun k => k + vd) := by
  simp only [viewsOf, update_video_stats, find?_update_stats, Option.map_map]
  rfl

theorem nodupLiked_like_video (db : DB) (m : Mem) (u v t : String)
    (h : nodupLiked m) : nodupLiked (like_video db m u v t).2 := by
  unfold like_video
  by_cases hh : hasProf m.user_profiles u
  · simp only [hh, if_true]
    intro e he
    unfold modifyProf at he
    simp only [List.mem_map] at he
    obtain ⟨e0, he0, rfl⟩ := he
    have hnd := h e0 he0
    by_cases hk : e0.1 = u
    · simp only [hk, if_true]
      by_cases hv : v ∈ e0.2.liked_videos
      · simpa [hv] using hnd
      · simp only [hv, if_false]
        simp [List.nodup_append, hnd, hv]
    · simpa [hk] using hnd
  · simpa [hh] using h

theorem nodupLiked_applyLikeCalls (calls : List (String × String × String)) :
    ∀ p : DB × Mem, nodupLiked p.2 → nodupLiked (applyLikeCalls p calls).2 := by
  induction calls with
  | nil => intro p h; exact h
  | cons c calls ih =>
    intro p h
    unfold applyLikeCalls at ih ⊢
    rw [List.foldl_cons]
    exact ih _ (nodupLiked_like_video p.1 p.2 c.1 c.2.1 c.2.2 h)

/-- C5: starting from an in-memory state whose liked lists are
duplicate-free, any sequence of `like_video` calls keeps every user's
in-memory liked list duplicate-free, while each single call appends exactly
one durable `liked_videos` row and increments the video's `likes` counter by
exactly one — repeated likes of the same pair included. -/
theorem like_video_invariants (db : DB) (m : Mem)
    (calls : List (String × String × String)) (user_id video_id ts : String)
    (h : nodupLiked m) :
    nodupLiked (applyLikeCalls (db, m) calls).2 ∧
    (like_video db m user_id video_id ts).1.liked_videos =
      db.liked_videos ++
        [{ user_id := user_id, video_id := video_id, timestamp := ts }] ∧
    likesOf (like_video db m user_id video_id ts).1 video_id =
      (likesOf db video_id).map (fun k => k + 1) := by
  refine ⟨nodupLiked_applyLikeCalls calls (db, m) h, ?_, ?_⟩
  · simp [like_video, update_video_stats]
  · show likesOf (update_video_stats
        { db with liked_videos := db.liked_videos ++
            [{ user_id := user_id, video_id := video_id, timestamp := ts }] }
        video_id 0 1) video_id = _
    rw [likesOf_update_video_stats]
    simp [likesOf]

theorem like_video_invariants_witness :
    nodupLiked oneUserMem ∧
    (nodupLiked (applyLikeCalls (emptyDB, oneUserMem)
        [("u1", "v1", "t1"), ("u1", "v1", "t2")]).2 ∧
      (like_video emptyDB oneUserMem "u1" "v1" "t1").1.liked_videos =
        emptyDB.liked_videos ++
          [{ user_id := "u1", video_id := "v1", timestamp := "t1" }] ∧
      likesOf (like_video emptyDB oneUserMem "u1" "v1" "t1").1 "v1" =
        (likesOf emptyDB "v1").map (fun k => k + 1)) :=
  ⟨by decide, like_video_invariants emptyDB oneUserMem
    [("u1", "v1", "t1"), ("u1", "v1", "t2")] "u1" "v1" "t1" (by decide)⟩

theorem jsonLoads_empty_brackets : jsonLoadsStringList "[]" = some [] := by
  simp [jsonLoadsStringList, decHead, decTop, isJsonWs]

theorem jsonDumps_isEmpty_false (l : List String) :
    (jsonDumpsStringList l).isEmpty = false := by
  rw [Bool.eq_false_iff]
  intro h
  have h2 : jsonDumpsStringList l = "" := (String.isEmpty_iff _).mp h
  have h3 := congrArg String.data h2
  simp [jsonDumpsStringList] at h3

theorem tags_cell_round_trip (tags : List String) :
    (if (if tags.isEmpty then "[]" else jsonDumpsStringList tags).isEmpty
     then ([] : List String)
     else (jsonLoadsStringList
        (if tags.isEmpty then "[]" else jsonDumpsStringList tags)).getD []) =
    tags := by
  by_cases h : tags.isEmpty = true
  · have h0 : tags = [] := by simpa using h
    subst h0
    simp [jsonLoads_empty_brackets]
  · rw [Bool.not_eq_true] at h
    rw [h]
    simp only [Bool.false_eq_true, if_false, jsonDumps_isEmpty_false,
      jsonLoads_jsonDumps, Option.getD_some]

/-- Reading back the serialized row of a video reproduces it exactly (in
this model the embedding bytes round-trip verbatim as well). -/
theorem rowToVideo_serialized (v : Video) :
    rowToVideo
      { id := v.id, title := v.title, description := v.description,
        tags := some (if v.tags.isEmpty then "[]"
                      else jsonDumpsStringList v.tags),
        category := v.category, duration := v.duration,
        upload_date := v.upload_date, views := v.views, likes := v.likes,
        creator := v.creator, embedding := v.embedding } = v := by
  cases v with
  | mk id title description tags category duration upload_date views likes
      creator embedding =>
    simp only [rowToVideo]
    congr 1
    exact tags_cell_round_trip tags

/-- C6: ingesting a video with `add_video_to_db` and reloading the catalog
with `load_videos_from_db` yields a record equal to the original in every
field (id, title, description, tags, category, duration, upload_date, views,
likes, creator) — an empty tags list serializing to `"[]"` and back to the
empty list — and every reloaded record carrying that id is such a copy (the
`INSERT OR REPLACE` removed any previous row with the same id). -/
theorem add_video_round_trip (db : DB) (m : Mem) (v : Video) :
    (∃ v', v' ∈ (load_videos_from_db (add_video_to_db db v) m).videos ∧
        sameVideoFields v' v) ∧
    (∀ v', v' ∈ (load_videos_from_db (add_video_to_db db v) m).videos →
        v'.id = v.id → sameVideoFields v' v) := by
  have hload : (load_videos_from_db (add_video_to_db db v) m).videos =
      (db.videos.filter (fun r => decide (¬ r.id = v.id))).map rowToVideo ++
        [v] := by
    simp only [load_videos_from_db, add_video_to_db, List.map_append,
      List.map_cons, List.map_nil]
    rw [rowToVideo_serialized]
  constructor
  · exact ⟨v, by simp [hload],
      ⟨rfl, rfl, rfl, rfl, rfl, rfl, rfl, rfl, rfl, rfl⟩⟩
  · intro v' hv' hid
    rw [hload] at hv'
    rcases List.mem_append.mp hv' with h | h
    · obtain ⟨r, hr, rfl⟩ := List.mem_map.mp h
      have hf := (List.mem_filter.mp hr).2
      have hne : ¬ r.id = v.id := by simpa using hf
      exact absurd hid hne
    · have hv : v' = v := by simpa using h
      subst hv
      exact ⟨rfl, rfl, rfl, rfl, rfl, rfl, rfl, rfl, rfl, rfl⟩

theorem mem_insertDesc (w y : WatchRow) :
    ∀ l, y ∈ insertDesc w l → y = w ∨ y ∈ l := by
  intro l
  induction l with
  | nil =>
    intro h
    simp [insertDesc] at h
    exact Or.inl h
  | cons x xs ih =>
    intro hy
    unfold insertDesc at hy
    by_cases hc : strLe x.timestamp w.timestamp = true
    · rw [if_pos hc] at hy
      rcases List.mem_cons.mp hy with h | h
      · exact Or.inl h
      · exact Or.inr h
    · rw [if_neg hc] at hy
      rcases List.mem_cons.mp hy with h | h
      · exact Or.inr (by simp [h])
      · rcases ih h with h2 | h2
        · exact Or.inl h2
        · exact Or.inr (by simp [h2])

theorem pairwise_insertDesc (w : WatchRow) :
    ∀ l, List.Pairwise (fun a b => strLe b.timestamp a.timestamp = true) l →
    List.Pairwise (fun a b => strLe b.timestamp a.timestamp = true)
      (insertDesc w l) := by
  intro l
  induction l with
  | nil => intro _; simp [insertDesc]
  | cons x xs ih =>
    intro hp
    rcases List.pairwise_cons.mp hp with ⟨hx, hxs⟩
    unfold insertDesc
    by_cases hc : strLe x.timestamp w.timestamp = true
    · rw [if_pos hc]
      refine List.pairwise_cons.mpr ⟨?_, hp⟩
      intro y hy
      rcases List.mem_cons.mp hy with h | h
      · subst h; exact hc
      · exact strLe_trans (hx y h) hc
    · rw [if_neg hc]
      have hw : strLe w.timestamp x.timestamp = true := by
        rcases strLe_total x.timestamp w.timestamp with h | h
        · exact absurd h hc
        · exact h
      refine List.pairwise_cons.mpr ⟨?_, ih hxs⟩
      intro y hy
      rcases mem_insertDesc w y xs hy with h | h
      · subst h; exact hw
      · exact hx y h

theorem pairwise_sortByTimestampDesc (l : List WatchRow) :
    List.Pairwise (fun a b => strLe b.timestamp a.timestamp = true)
      (sortByTimestampDesc l) := by
  unfold sortByTimestampDesc
  induction l with
  | nil => simp
  | cons w l ih =>
    rw [List.foldr_cons]
    exact pairwise_insertDesc w _ ih

theorem foldl_addWatchEntry (rows : List WatchRow) :
    ∀ p : UserProfile,
    (rows.foldl (fun q w => addWatchEntry w q) p).watch_history =
      p.watch_history ++ rows.map watchEntry := by
  induction rows with
  | nil => intro p; simp
  | cons w rows ih =>
    intro p
    rw [List.foldl_cons, ih]
    simp [addWatchEntry]

theorem applyLikes_watch_history (db : DB) (x : String) (p : UserProfile) :
    (applyLikes db x p).watch_history = p.watch_history := by
  unfold applyLikes
  generalize db.liked_videos.filter (fun l => decide (l.user_id = x)) = l
  induction l generalizing p with
  | nil => rfl
  | cons a l ih => rw [List.foldl_cons]; rw [ih]; rfl

/-- C7: `update_user_watch_history` appends exactly one `watch_history` row
for the pair with the given (possibly NULL) rating, increments the
referenced video's `views` counter by exactly one, and after a reload every
profile loaded from a `user_profiles` row has its in-memory watch-history
view ordered most-recent-first (timestamps non-increasing). -/
theorem record_watch_spec (db : DB) (m m2 : Mem)
    (user_id video_id x : String) (rating : Option Rat) (ts : String)
    (p : UserProfile)
    (hrow : (lastProfileRow x
      (update_user_watch_history db m user_id video_id rating
        ts).1.user_profiles).isSome = true)
    (hx : lookupProf (reloadAll
        (update_user_watch_history db m user_id video_id rating ts).1
        m2).user_profiles x = some p) :
    (update_user_watch_history db m user_id video_id rating
        ts).1.watch_history =
      db.watch_history ++
        [{ user_id := user_id, video_id := video_id, timestamp := ts,
           rating := rating }] ∧
    viewsOf (update_user_watch_history db m user_id video_id rating ts).1
        video_id =
      (viewsOf db video_id).map (fun k => k + 1) ∧
    List.Pairwise
      (fun a b : WatchEntry => strLe b.timestamp a.timestamp = true)
      p.watch_history := by
  refine ⟨?_, ?_, ?_⟩
  · simp [update_user_watch_history, update_video_stats]
  · show viewsOf (update_video_stats
        { db with watch_history := db.watch_history ++
            [{ user_id := user_id, video_id := video_id, timestamp := ts,
               rating := rating }] }
        video_id 1 0) video_id = _
    rw [viewsOf_update_video_stats]
    simp [viewsOf]
  · rw [reloadAll, lookupProf_load_profiles] at hx
    set db2 := (update_user_watch_history db m user_id video_id rating ts).1
      with hdb2
    cases hl : lastProfileRow x db2.user_profiles with
    | none =>
      rw [show (load_videos_from_db db2 m2).user_profiles =
          m2.user_profiles from rfl] at hx
      rw [hl] at hrow
      simp at hrow
    | some r =>
      rw [show (load_videos_from_db db2 m2).user_profiles =
          m2.user_profiles from rfl, hl] at hx
      simp only [Option.map_some] at hx
      have hp : p = applyLikes db2 x (applyWatches db2 x (initProfile r)) :=
        (Option.some.injEq _ _ ▸ hx).symm
      rw [hp, applyLikes_watch_history]
      unfold applyWatches
      rw [foldl_addWatchEntry]
      have : (initProfile r).watch_history = [] := rfl
      rw [this, List.nil_append]
      rw [List.pairwise_map]
      exact ((pairwise_sortByTimestampDesc db2.watch_history).filter _)

/-- One registered user, one video, no events yet. -/
def watchWitnessDB : DB :=
  { videos := [{ id := "v1", title := "T", description := "D",
                 tags := some "[]", category := "C", duration := 10,
                 upload_date := "2024-01-01", views := 7, likes := 0,
                 creator := "A", embedding := none }],
    user_profiles := [{ user_id := "u1", preferences := none,
                        created_at := "c1", updated_at := "c1" }],
    watch_history := [], liked_videos := [], recommendation_logs := [] }

theorem record_watch_spec_witness :
    (lastProfileRow "u1" (update_user_watch_history watchWitnessDB emptyMem
        "u1" "v1" none "t1").1.user_profiles).isSome = true ∧
    lookupProf (reloadAll (update_user_watch_history watchWitnessDB emptyMem
        "u1" "v1" none "t1").1 emptyMem).user_profiles "u1" =
      some { preferences := none,
             watch_history := [{ video_id := "v1", timestamp := "t1",
                                 rating := none }],
             liked_videos := [], disliked_videos := [] } ∧
    ((update_user_watch_history watchWitnessDB emptyMem "u1" "v1" none
        "t1").1.watch_history =
      watchWitnessDB.watch_history ++
        [{ user_id := "u1", video_id := "v1", timestamp := "t1",
           rating := none }] ∧
    viewsOf (update_user_watch_history watchWitnessDB emptyMem "u1" "v1" none
        "t1").1 "v1" =
      (viewsOf watchWitnessDB "v1").map (fun k => k + 1) ∧
    List.Pairwise
      (fun a b : WatchEntry => strLe b.timestamp a.timestamp = true)
      (UserProfile.watch_history
        { preferences := none,
          watch_history := [{ video_id := "v1", timestamp := "t1",
                              rating := none }],
          liked_videos := [], disliked_videos := [] })) :=
  ⟨by decide, by decide,
    record_watch_spec watchWitnessDB emptyMem emptyMem "u1" "v1" "u1" none
      "t1" _ (by decide) (by decide)⟩

/-! ## C4: the full reload -/

/-- A database whose `watch_history` holds a row for user `g`, who has no
`user_profiles` row. -/
def ghostDB : DB :=
  { videos := [], user_profiles := [],
    watch_history := [{ user_id := "g", video_id := "v1",
                        timestamp := "t1", rating := none }],
    liked_videos := [], recommendation_logs := [] }

/-- A prior in-memory state that already has an entry for `g`. -/
def ghostMem : Mem :=
  { videos := [],
    user_profiles := [("g", { preferences := none, watch_history := [],
                              liked_videos := [], disliked_videos := [] })] }

/-- A database with a `user_profiles` row for u1 and one of their watch
rows. -/
def oneUserTableDB : DB :=
  { videos := [],
    user_profiles := [{ user_id := "u1", preferences := none,
                        created_at := "c1", updated_at := "c1" }],
    watch_history := [{ user_id := "u1", video_id := "v1",
                        timestamp := "t1", rating := none }],
    liked_videos := [], recommendation_logs := [] }

/-- A prior in-memory state whose only key, u1, is present in
`oneUserTableDB`'s profile table (with stale contents). -/
def oneUserTableMem : Mem :=
  { videos := [],
    user_profiles := [("u1", { preferences := none,
                               watch_history := [{ video_id := "old",
                                                   timestamp := "t0",
                                                   rating := none }],
                               liked_videos := ["old"],
                               disliked_videos := [] })] }

/-- C4 counterexample: starting from an in-memory state holding a user
absent from the `user_profiles` table, the reload does not replace that
entry (its result differs from the reload of the empty state), and running
the reload twice appends the user's watch rows twice — the double reload
does not equal the single reload. -/
theorem reload_not_replacing_cx :
    reloadAll ghostDB (reloadAll ghostDB ghostMem) ≠
      reloadAll ghostDB ghostMem ∧
    lookupProf (reloadAll ghostDB ghostMem).user_profiles "g" ≠
      lookupProf (reloadAll ghostDB emptyMem).user_profiles "g" := by
  decide

/-- C4 (amended): `load_videos_from_db` always fully replaces the in-memory
catalog with a function of the `videos` table alone.  The profile side is
determined solely by the durable tables — per-key, the notion of equality of
Python dicts — and the double reload is idempotent, provided every
pre-existing in-memory profile key has a `user_profiles` row (in particular
from the empty in-memory state); an in-memory user missing from that table
keeps its stale entry and accrues its watch/like rows again on every
reload. -/
theorem reload_amended (db : DB) (m : Mem)
    (h : ∀ e ∈ m.user_profiles, (lastProfileRow e.1 db.user_profiles).isSome
      = true) :
    (reloadAll db m).videos = db.videos.map rowToVideo ∧
    (∀ x, lookupProf (reloadAll db m).user_profiles x =
      lookupProf (reloadAll db emptyMem).user_profiles x) ∧
    (∀ x, lookupProf (reloadAll db (reloadAll db m)).user_profiles x =
      lookupProf (reloadAll db m).user_profiles x) ∧
    (reloadAll db (reloadAll db m)).videos = (reloadAll db m).videos := by
  have hvid : ∀ m2 : Mem, (reloadAll db m2).videos = db.videos.map rowToVideo := by
    intro m2
    simp [reloadAll, load_user_profiles_from_db, load_videos_from_db]
  have hnone : ∀ x, lastProfileRow x db.user_profiles = none →
      lookupProf m.user_profiles x = none := by
    intro x hx
    cases hl : lookupProf m.user_profiles x with
    | none => rfl
    | some q =>
      have hhas : hasProf m.user_profiles x :=
        (hasProf_iff _ _).mpr (by simp [hl])
      obtain ⟨e, he, hex⟩ := hhas
      have hcontra := h e he
      rw [hex, hx] at hcontra
      simp at hcontra
  have hlook : ∀ (m2 : Mem) (x : String),
      lookupProf (reloadAll db m2).user_profiles x =
        (match lastProfileRow x db.user_profiles with
         | some r => some (initProfile r)
         | none => lookupProf m2.user_profiles x).map
          (fun p => applyLikes db x (applyWatches db x p)) := by
    intro m2 x
    rw [reloadAll, lookupProf_load_profiles]
    rfl
  refine ⟨hvid m, ?_, ?_, ?_⟩
  · intro x
    rw [hlook m x, hlook emptyMem x]
    cases hl : lastProfileRow x db.user_profiles with
    | some r => rfl
    | none => simp [hnone x hl, lookupProf, emptyMem]
  · intro x
    have h1 := hlook m x
    rw [hlook (reloadAll db m) x, h1]
    cases hl : lastProfileRow x db.user_profiles with
    | some r => rfl
    | none => simp [hnone x hl]
  · rw [hvid (reloadAll db m), hvid m]

theorem reload_amended_witness :
    (∀ e ∈ oneUserTableMem.user_profiles,
      (lastProfileRow e.1 oneUserTableDB.user_profiles).isSome = true) ∧
    ((reloadAll oneUserTableDB oneUserTableMem).videos =
      oneUserTableDB.videos.map rowToVideo ∧
    (∀ x, lookupProf
        (reloadAll oneUserTableDB oneUserTableMem).user_profiles x =
      lookupProf (reloadAll oneUserTableDB emptyMem).user_profiles x) ∧
    (∀ x, lookupProf (reloadAll oneUserTableDB
        (reloadAll oneUserTableDB oneUserTableMem)).user_profiles x =
      lookupProf (reloadAll oneUserTableDB oneUserTableMem).user_profiles x) ∧
    (reloadAll oneUserTableDB
        (reloadAll oneUserTableDB oneUserTableMem)).videos =
      (reloadAll oneUserTableDB oneUserTableMem).videos) :=
  ⟨by decide, reload_amended oneUserTableDB oneUserTableMem (by decide)⟩

example : jsonDumpsStringList [] = "[]" := by decide
example : jsonDumpsStringList ["ab", "c\"d"] = "[\"ab\", \"c\\\"d\"]" := by decide
example : jsonLoadsStringList "[]" = some [] := by
  simp [jsonLoadsStringList, decHead, decTop, isJsonWs]
example : jsonLoadsStringList "[\"ab\", \"x\"]" = some ["ab", "x"] := by
  simp [jsonLoadsStringList, decHead, decTop, decStr, decEsc, decAfter,
    decComma, isJsonWs, String.mk]

end VideoRec
